import Mathlib

/-!
Shallow embedding of the MapSCII rendering core (BrailleBuffer, Canvas.polygon,
LabelBuffer, Styler filters, Tile feature records, TileSource cache), translated
from the TypeScript source, together with proofs about the spec's claims.

Buffers are `Buffer` byte arrays in the source; we model a byte store by
reducing every written value modulo 256.  JS `||`-defaulting and truthiness
(0, "" and undefined are falsy) are modelled explicitly where the source uses
them.
-/

namespace Mapscii

/-- JS `v || null` applied to a byte read from a `Buffer`: 0 is falsy and
becomes `null` (here `none`). -/
def jsOrNull (v : Nat) : Option Nat := if v = 0 then none else some v

/-- Modelled from the spec: `utils.population` (utils.ts is not part of the
given sources) — the population count used for the ASCII fallback ranking. -/
def population : Nat → Nat
  | 0 => 0
  | (n+1) => (n+1) % 2 + population ((n+1) / 2)
decreasing_by exact Nat.div_lt_self (Nat.succ_pos n) (by omega)

/-- Modelled from the spec: the `string-width` package — East-Asian wide
characters (representative ranges, enough for CJK and full-width forms)
count 2, everything else 1. -/
def charWidth (c : Char) : Nat :=
  let n := c.toNat
  if (0x1100 ≤ n ∧ n ≤ 0x115F) ∨ (0x2E80 ≤ n ∧ n ≤ 0x303E) ∨
     (0x3041 ≤ n ∧ n ≤ 0x33FF) ∨ (0x3400 ≤ n ∧ n ≤ 0x4DBF) ∨
     (0x4E00 ≤ n ∧ n ≤ 0x9FFF) ∨ (0xAC00 ≤ n ∧ n ≤ 0xD7A3) ∨
     (0xF900 ≤ n ∧ n ≤ 0xFAFF) ∨ (0xFF00 ≤ n ∧ n ≤ 0xFF60) then 2 else 1

/-- Modelled from the spec: `stringWidth` of the `string-width` package,
the sum of the character widths. -/
def stringWidth (s : String) : Nat := s.toList.foldl (fun w c => w + charWidth c) 0

/-! ## BrailleBuffer (src/unnamed/part_001) -/

/-- The four parallel per-cell stores of `BrailleBuffer` plus the global
background.  `pixel`, `fg`, `bg` are byte buffers of the constructor's size
`width*height/8`; we model them as total functions from the cell index. -/
structure BrailleBuffer where
  width : Nat
  height : Nat
  pixel : Nat → Nat
  fg : Nat → Nat
  bg : Nat → Nat
  char : Nat → Option String
  globalBackground : Option Nat

/-- The freshly constructed (equivalently, `clear()`ed) buffer. -/
def clearBuffer (w h : Nat) : BrailleBuffer :=
  ⟨w, h, fun _ => 0, fun _ => 0, fun _ => 0, fun _ => none, none⟩

/-- `this.brailleMap = [[0x1, 0x8], [0x2, 0x10], [0x4, 0x20], [0x40, 0x80]]` -/
def brailleMap : List (List Nat) := [[0x1, 0x8], [0x2, 0x10], [0x4, 0x20], [0x40, 0x80]]

/-- `this.brailleMap[y & 3][x & 1]` — both indices are in range, so the
defaults are never taken. -/
def brailleMask (y x : Nat) : Nat := (brailleMap.getD (y &&& 3) []).getD (x &&& 1) 0

/-- `_project(x, y) = (x >> 1) + (width >> 1) * (y >> 2)` -/
def project (w x y : Nat) : Nat := (x >>> 1) + (w >>> 1) * (y >>> 2)

/-- The bounds test of `_locate` / `setBackground` / `setChar`:
`0 <= x && x < width && 0 <= y && y < height`. -/
def inBounds (b : BrailleBuffer) (x y : Int) : Prop :=
  0 ≤ x ∧ x < (b.width : Int) ∧ 0 ≤ y ∧ y < (b.height : Int)

instance (b : BrailleBuffer) (x y : Int) : Decidable (inBounds b x y) := by
  unfold inBounds; infer_instance

/-- `setPixel(x, y, color)`: inside `_locate`'s bounds check, OR the braille
mask into `pixel[idx]` and store `color` into `fg[idx]` (byte stores). -/
def setPixel (b : BrailleBuffer) (x y : Int) (color : Nat) : BrailleBuffer :=
  if inBounds b x y then
    let idx := project b.width x.toNat y.toNat
    let mask := brailleMask y.toNat x.toNat
    { b with pixel := Function.update b.pixel idx ((b.pixel idx ||| mask) % 256),
             fg := Function.update b.fg idx (color % 256) }
  else b

/-- `unsetPixel(x, y)`: `pixel[idx] &= ~mask`; JS `~` acts on 32-bit integers,
and the byte store truncates, hence the `2^32-1` XOR mask and the mod. -/
def unsetPixel (b : BrailleBuffer) (x y : Int) : BrailleBuffer :=
  if inBounds b x y then
    let idx := project b.width x.toNat y.toNat
    let mask := brailleMask y.toNat x.toNat
    { b with pixel := Function.update b.pixel idx ((b.pixel idx &&& (4294967295 ^^^ mask)) % 256) }
  else b

/-- `setBackground(x, y, color)`: bounds-checked byte store into `bg`. -/
def setBackground (b : BrailleBuffer) (x y : Int) (color : Nat) : BrailleBuffer :=
  if inBounds b x y then
    { b with bg := Function.update b.bg (project b.width x.toNat y.toNat) (color % 256) }
  else b

/-- `setGlobalBackground(background)` -/
def setGlobalBackground (b : BrailleBuffer) (background : Nat) : BrailleBuffer :=
  { b with globalBackground := some background }

/-- `setChar(char, x, y, color)`: bounds-checked store of the override char
and its foreground color. -/
def setChar (b : BrailleBuffer) (ch : String) (x y : Int) (color : Nat) : BrailleBuffer :=
  if inBounds b x y then
    let idx := project b.width x.toNat y.toNat
    { b with char := Function.update b.char idx (some ch),
             fg := Function.update b.fg idx (color % 256) }
  else b

/-- `termReset = '\x1B[39;49m'` -/
def termReset : String := "\x1B[39;49m"

/-- `_termColor(foreground, background)`: the source first computes
`background = background! | this.globalBackground!` — a bitwise OR in which
`null` coerces to 0 — and then branches on JS truthiness of both values. -/
def termColor (foreground background globalBackground : Option Nat) : String :=
  let bg := background.getD 0 ||| globalBackground.getD 0
  match foreground with
  | some f =>
    if f ≠ 0 then
      if bg ≠ 0 then s!"\x1B[38;5;{f};48;5;{bg}m" else s!"\x1B[49;38;5;{f}m"
    else
      if bg ≠ 0 then s!"\x1B[39;48;5;{bg}m" else termReset
  | none => if bg ≠ 0 then s!"\x1B[39;48;5;{bg}m" else termReset

/-- The color-code expression of `frame()`:
`this._termColor(this.foregroundBuffer[idx] || null, this.backgroundBuffer[idx] || null)`. -/
def cellColor (b : BrailleBuffer) (idx : Nat) : String :=
  termColor (jsOrNull (b.fg idx)) (jsOrNull (b.bg idx)) b.globalBackground

/-! ### ASCII fallback table (`_mapBraille`) -/

/-- The `asciiMap` table flattened into (mask, char) pairs, in source order:
▀ = 1+2+16+32, ▄ = 4+8+64+128, ■ = 2+4+32+64, ▌ = 1+2+4+8, ▐ = 16+32+64+128,
█ = 255. -/
def asciiMasks : List (Nat × String) :=
  [(51, "▀"), (204, "▄"), (102, "■"), (15, "▌"), (240, "▐"), (255, "█")]

/-- `braille = (i & 7) + ((i & 56) << 1) + ((i & 64) >> 3) + (i & 128)` -/
def brailleOfIndex (i : Nat) : Nat :=
  (i &&& 7) + ((i &&& 56) <<< 1) + ((i &&& 64) >>> 3) + (i &&& 128)

/-- The `masks.reduce` in `_mapBraille`: keep the first character whose mask
covers the most bits of the braille pattern (strict improvement, so ties keep
the earlier entry). -/
def bestAsciiChar (braille : Nat) : String :=
  (asciiMasks.foldl
    (fun best mk =>
      let covered := population (mk.1 &&& braille)
      match best with
      | some b => if b.2 < covered then some (mk.2, covered) else some b
      | none => some (mk.2, covered))
    none).elim " " (fun p => p.1)

/-- `asciiToBraille[0] = ' '`; indices 1..255 get the best-covering char. -/
def asciiToBraille (i : Nat) : String :=
  if i = 0 then " " else bestAsciiChar (brailleOfIndex i)

/-! ### frame() -/

/-- The configuration read by `frame()`. -/
structure FrameConfig where
  useBraille : Bool
  delimeter : String

/-- One element pushed to `output`; `.sgr` marks a push from the
color-compression branch, `.text` everything else (glyphs, chars, delimiters,
the final terminator). -/
inductive Chunk where
  | sgr (s : String)
  | text (s : String)
deriving DecidableEq

/-- The string a chunk contributes to the frame. -/
def Chunk.str : Chunk → String
  | .sgr s => s
  | .text s => s

/-- The loop state of `frame()`: `currentColor`, `skip` and the output list. -/
structure FrameState where
  currentColor : Option String
  skip : Nat
  output : List Chunk

/-- `if (idx && !x) output.push(config.delimeter);` -/
def cellDelimStep (cfg : FrameConfig) (idx x : Nat) (st : FrameState) : FrameState :=
  if idx ≠ 0 ∧ x = 0 then { st with output := st.output ++ [Chunk.text cfg.delimeter] }
  else st

/-- The color-compression step: push the cell's SGR sequence only when it
differs from `currentColor`, and remember it. -/
def cellColorStep (b : BrailleBuffer) (idx : Nat) (st : FrameState) : FrameState :=
  let colorCode := cellColor b idx
  if st.currentColor ≠ some colorCode then
    { st with currentColor := some colorCode, output := st.output ++ [Chunk.sgr colorCode] }
  else st

/-- The glyph step: an override char bumps `skip` and is pushed only when it
fits the row; otherwise a braille (or ASCII-fallback) glyph is pushed unless
the cell is skipped. -/
def cellGlyphStep (b : BrailleBuffer) (cfg : FrameConfig) (idx x : Nat) (st : FrameState) :
    FrameState :=
  match b.char idx with
  | some ch =>
    let skip := st.skip + (stringWidth ch - 1)
    if skip + x < b.width / 2 then { st with skip, output := st.output ++ [Chunk.text ch] }
    else { st with skip }
  | none =>
    if st.skip = 0 then
      { st with output := st.output ++
          [Chunk.text (if cfg.useBraille then String.mk [Char.ofNat (0x2800 + b.pixel idx)]
                       else asciiToBraille (b.pixel idx))] }
    else { st with skip := st.skip - 1 }

/-- The body of the inner cell loop of `frame()` for column `x` of row `y`:
`idx = y * width/2 + x`, then the three pushes in source order. -/
def frameCell (b : BrailleBuffer) (cfg : FrameConfig) (y x : Nat) (st : FrameState) :
    FrameState :=
  let idx := y * (b.width / 2) + x
  cellGlyphStep b cfg idx x (cellColorStep b idx (cellDelimStep cfg idx x st))

/-- One row of `frame()`'s loop: `skip` is reset at the row start. -/
def frameRow (b : BrailleBuffer) (cfg : FrameConfig) (st : FrameState) (y : Nat) : FrameState :=
  (List.range (b.width / 2)).foldl (fun s x => frameCell b cfg y x s) { st with skip := 0 }

/-- The chunk sequence produced by `frame()`, ending with the unconditional
`termReset + config.delimeter` push. -/
def frameChunks (b : BrailleBuffer) (cfg : FrameConfig) : List Chunk :=
  let st := (List.range (b.height / 4)).foldl (frameRow b cfg) ⟨none, 0, []⟩
  st.output ++ [Chunk.text (termReset ++ cfg.delimeter)]

/-- `frame()`: the joined output string. -/
def frame (b : BrailleBuffer) (cfg : FrameConfig) : String :=
  String.join ((frameChunks b cfg).map Chunk.str)

/-- The subsequence of SGR sequences emitted by the color-compression step. -/
def sgrList (l : List Chunk) : List String :=
  l.filterMap fun c => match c with | .sgr s => some s | .text _ => none

/-! ## Styler (second unit of src/src/Mapscii.ts) -/

/-- A JS property value on a decoded feature. -/
inductive PropValue where
  | str (s : String)
  | num (n : Int)
  | boolean (b : Bool)
deriving DecidableEq

/-- JS truthiness of a possibly-absent property value. -/
def jsTruthy : Option PropValue → Bool
  | none => false
  | some (.str s) => s ≠ ""
  | some (.num n) => n ≠ 0
  | some (.boolean b) => b

/-- A feature as seen by a compiled filter: its `properties` object. -/
structure Feature where
  properties : List (String × PropValue)

/-- `feature.properties[k]` -/
def Feature.get (f : Feature) (k : String) : Option PropValue :=
  (f.properties.find? (fun p => p.1 = k)).map (fun p => p.2)

/-- JS numeric comparison `properties[k] OP v` with a numeric filter operand:
comparisons against `undefined` are NaN comparisons and yield false; JS
numeric coercion of non-number property values is not modelled (the style
filters compare numeric rank properties). -/
def jsNumCompare (cmp : Int → Int → Bool) : Option PropValue → Int → Bool
  | some (.num n), v => cmp n v
  | _, _ => false

/-- The filter forms of `Styler._compileFilter`; `unknown` is the default
(absent / unrecognised) arm compiling to `always true`. -/
inductive Filter where
  | all (fs : List Filter)
  | anyOf (fs : List Filter)
  | noneOf (fs : List Filter)
  | eq (k : String) (v : PropValue)
  | ne (k : String) (v : PropValue)
  | isIn (k : String) (vs : List PropValue)
  | notIn (k : String) (vs : List PropValue)
  | has (k : String)
  | notHas (k : String)
  | lt (k : String) (v : Int)
  | le (k : String) (v : Int)
  | gt (k : String) (v : Int)
  | ge (k : String) (v : Int)
  | unknown

mutual

/-- The predicate `Styler._compileFilter` produces, applied to a feature.
The `all` arm is the source's `!!filters.find((a) => !a(feature))` — true iff
some sub-filter rejects; `anyOf` is `!!filters.find((a) => a(feature))`;
`noneOf` is `!filters.find((a) => !a(feature))`. -/
def compileFilter : Filter → Feature → Bool
  | .all fs, f => anyRejects fs f
  | .anyOf fs, f => anyAccepts fs f
  | .noneOf fs, f => ! anyRejects fs f
  | .eq k v, f => decide (f.get k = some v)
  | .ne k v, f => ! decide (f.get k = some v)
  | .isIn k vs, f => vs.any (fun v => decide (f.get k = some v))
  | .notIn k vs, f => ! vs.any (fun v => decide (f.get k = some v))
  | .has k, f => jsTruthy (f.get k)
  | .notHas k, f => ! jsTruthy (f.get k)
  | .lt k v, f => jsNumCompare (fun a b => a < b) (f.get k) v
  | .le k v, f => jsNumCompare (fun a b => a ≤ b) (f.get k) v
  | .gt k v, f => jsNumCompare (fun a b => a > b) (f.get k) v
  | .ge k v, f => jsNumCompare (fun a b => a ≥ b) (f.get k) v
  | .unknown, _ => true

/-- `!!filters.find((appliesTo) => !appliesTo(feature))` — does some compiled
sub-filter reject the feature? -/
def anyRejects : List Filter → Feature → Bool
  | [], _ => false
  | g :: gs, f => (! compileFilter g f) || anyRejects gs f

/-- `!!filters.find((appliesTo) => appliesTo(feature))` — does some compiled
sub-filter accept the feature? -/
def anyAccepts : List Filter → Feature → Bool
  | [], _ => false
  | g :: gs, f => compileFilter g f || anyAccepts gs f

end

/-! ## LabelBuffer (src/unnamed/part_003) -/

/-- An axis-aligned rectangle stored in the label R-tree (the attached
`feature` payload plays no role in collision testing and is omitted). -/
structure LabelRect where
  minX : ℚ
  minY : ℚ
  maxX : ℚ
  maxY : ℚ
deriving DecidableEq

/-- Modelled from the spec: the third-party R-tree's rectangle intersection
(`rbush`'s `intersects`, closed intervals on both axes). -/
def rectIntersects (a b : LabelRect) : Bool :=
  decide (b.minX ≤ a.maxX) && decide (b.minY ≤ a.maxY) &&
  decide (a.minX ≤ b.maxX) && decide (a.minY ≤ b.maxY)

/-- Modelled from the spec: `rbush`'s `collides(bbox)` — does any stored
rectangle intersect `bbox`?  (The tree is modelled as the list of stored
rectangles, in insertion order.) -/
def treeCollides (tree : List LabelRect) (bbox : LabelRect) : Bool :=
  tree.any (fun item => rectIntersects bbox item)

/-- `_calculateArea(text, x, y, margin = 0)` -/
def calculateArea (text : String) (x y : Int) (margin : ℚ) : LabelRect :=
  { minX := x - margin
    minY := y - margin / 2
    maxX := x + margin + stringWidth text
    maxY := y + margin / 2 }

/-- `project(x, y) = [Math.floor(x / 2), Math.floor(y / 4)]` -/
def labelProject (x y : ℚ) : Int × Int := (⌊x / 2⌋, ⌊y / 4⌋)

/-- `margin = margin || this.margin` with the constructor's `this.margin = 5`:
an absent or zero argument falls back to 5. -/
def jsMargin (margin : Option ℚ) : ℚ :=
  match margin with
  | some v => if v ≠ 0 then v else 5
  | none => 5

/-- `writeIfPossible(text, x, y, feature, margin)`.  `_hasSpace` tests the
rectangle computed with `_calculateArea`'s default margin 0; on success the
rectangle inflated by the actual margin is inserted (`tree.insert` returns the
tree, a truthy value, modelled as `true`). -/
def writeIfPossible (tree : List LabelRect) (text : String) (x y : ℚ)
    (margin : Option ℚ) : Bool × List LabelRect :=
  let m := jsMargin margin
  let p := labelProject x y
  if ! treeCollides tree (calculateArea text p.1 p.2 0) then
    (true, tree ++ [calculateArea text p.1 p.2 m])
  else
    (false, tree)

/-! ## TileSource (src/unnamed/part_000) -/

/-- A JS object used as a string-keyed map, modelled as an association list
in property-insertion order. -/
def objGet (o : List (String × Nat)) (k : String) : Option Nat :=
  (o.find? (fun p => p.1 = k)).map (fun p => p.2)

/-- JS `delete o[k]`. -/
def objDelete (o : List (String × Nat)) (k : String) : List (String × Nat) :=
  o.filter (fun p => p.1 ≠ k)

/-- JS `o[k] = v`: overwrite in place if present, else append. -/
def objSet (o : List (String × Nat)) (k : String) (v : Nat) : List (String × Nat) :=
  if (o.find? (fun p => p.1 = k)).isSome then
    o.map (fun p => if p.1 = k then (k, v) else p)
  else o ++ [(k, v)]

/-- `[z, x, y].join('-')` -/
def getTileKey (z x y : Nat) : String := s!"{z}-{x}-{y}"

/-- The cache state of a `TileSource`: the `cache` object, the `cached` key
list and `cacheSize` (16 after `init`).  Decoded tiles are abstracted to the
`Nat` payload handed to `_createTile`. -/
structure TileSourceState where
  cache : List (String × Nat)
  cached : List String
  cacheSize : Nat

/-- The state after `init`: empty cache, `cacheSize = 16`. -/
def initTileSource : TileSourceState := ⟨[], [], 16⟩

/-- The cache behaviour of `getTile(z, x, y)` followed (on a miss) by
`_createTile`, with the fetch abstracted to the decoded `tile` payload.
On overflow the source iterates `for (const tile in this.cached.splice(0,
overflow))` — a `for...in` over an array, which yields the index strings
"0", "1", … of the spliced-off array, and those index strings are what
`delete this.cache[tile]` removes. -/
def getTile (ts : TileSourceState) (z x y : Nat) (tile : Nat) : TileSourceState × Nat :=
  let key := getTileKey z x y
  match objGet ts.cache key with
  | some cachedTile => (ts, cachedTile)
  | none =>
    let ts :=
      if ts.cached.length > ts.cacheSize then
        let overflow := ts.cached.length - ts.cacheSize
        let indexKeys := (List.range overflow).map (fun i => toString i)
        { ts with cached := ts.cached.drop overflow,
                  cache := indexKeys.foldl objDelete ts.cache }
      else ts
    ({ ts with cached := ts.cached ++ [key], cache := objSet ts.cache key tile }, tile)

/-- A sequence of `getTile` requests, threading the cache state. -/
def runGetTiles (ts : TileSourceState) (reqs : List (Nat × Nat × Nat)) : TileSourceState :=
  reqs.foldl (fun s r => (getTile s r.1 r.2.1 r.2.2 0).1) ts

/-! ## Tile feature records (src/unnamed/part_002) -/

/-- JS `a || b` on two optional numeric properties: a present-and-nonzero
`a` wins, otherwise `b` (which may itself be absent or zero). -/
def jsNumOr (a b : Option Int) : Option Int :=
  match a with
  | some v => if v ≠ 0 then some v else b
  | none => b

/-- `const sort = feature.properties.localrank || feature.properties.scalerank;`
from `Tile._loadLayers`. -/
def featureSort (localrank scalerank : Option Int) : Option Int :=
  jsNumOr localrank scalerank

/-! ## Canvas.polygon (src/src/Canvas.ts) -/

/-- A geometry point. -/
structure Pt where
  x : Int
  y : Int
deriving DecidableEq

/-- The inner vertex-pushing loop: append `point.x, point.y` for each ring
point to the flat vertex array. -/
def flattenRing (vertices : List Int) (ring : List Pt) : List Int :=
  ring.foldl (fun vs p => vs ++ [p.x, p.y]) vertices

/-- The ring loop of `polygon`: build the flat vertex array and the
hole-start indices; `none` models the early `return false` on a first ring
with fewer than 3 vertices. -/
def buildVertices : List (List Pt) → List Int → List Nat → Option (List Int × List Nat)
  | [], vertices, holes => some (vertices, holes)
  | ring :: rest, vertices, holes =>
    if vertices.length ≠ 0 then
      if ring.length < 3 then buildVertices rest vertices holes
      else buildVertices rest (flattenRing vertices ring) (holes ++ [vertices.length / 2])
    else
      if ring.length < 3 then none
      else buildVertices rest (flattenRing vertices ring) holes

/-- `_polygonExtract(vertices, pointId)`; out-of-range reads (which the
ear-cut contract never produces) default to 0. -/
def polygonExtract (vertices : List Int) (pointId : Nat) : Pt :=
  ⟨vertices.getD (pointId * 2) 0, vertices.getD (pointId * 2 + 1) 0⟩

/-- The triangle-index triples of the ear-cut result (`for i; i += 3`; the
contract returns a multiple of 3 indices). -/
def triangleTriples : List Nat → List (Nat × Nat × Nat)
  | a :: b :: c :: rest => (a, b, c) :: triangleTriples rest
  | _ => []

/-- The span fill `for (x = left; x <= right; x++) setPixel(x, point.y)`. -/
def fillSpan (b : BrailleBuffer) (left right yy : Int) (color : Nat) : BrailleBuffer :=
  (List.range ((right + 1 - left).toNat)).foldl
    (fun c k => setPixel c (left + k) yy color) b

/-- The walk over the sorted point list of `_filledTriangle`: consecutive
points on the same row become a clamped horizontal span, otherwise the single
point is written. -/
def fillWalk (b : BrailleBuffer) (color : Nat) : List Pt → BrailleBuffer
  | [] => b
  | [p] => setPixel b p.x p.y color
  | p :: next :: rest =>
    if p.y = next.y then
      let left := max 0 p.x
      let right := min ((b.width : Int) - 1) next.x
      let b := if left ≥ 0 ∧ right ≤ (b.width : Int) then fillSpan b left right p.y color else b
      fillWalk b color (next :: rest)
    else
      fillWalk (setPixel b p.x p.y color) color (next :: rest)

/-- `_filledTriangle(a, b, c, color)`, parameterised by the `bresenham`
dependency: concatenate the three edge rasterisations, drop off-screen rows,
sort by `(y, x)` ascending, then walk. -/
def filledTriangle (bres : Int → Int → Int → Int → List Pt) (b : BrailleBuffer)
    (pa pb pc : Pt) (color : Nat) : BrailleBuffer :=
  let points := (bres pb.x pb.y pc.x pc.y ++ bres pa.x pa.y pc.x pc.y ++
                 bres pa.x pa.y pb.x pb.y).filter
      (fun p => decide (0 ≤ p.y) && decide (p.y < (b.height : Int)))
  let sorted := points.mergeSort
      (fun p q => decide (p.y < q.y) || (decide (p.y = q.y) && decide (p.x ≤ q.x)))
  fillWalk b color sorted

/-- `polygon(rings, color)`, parameterised by the `earcut` and `bresenham`
dependencies; `earcut` returning `.error` models a thrown triangulation
exception caught by the `try`/`catch`. -/
def polygon (earcutF : List Int → List Nat → Except Unit (List Nat))
    (bres : Int → Int → Int → Int → List Pt) (b : BrailleBuffer)
    (rings : List (List Pt)) (color : Nat) : Bool × BrailleBuffer :=
  match buildVertices rings [] [] with
  | none => (false, b)
  | some (vertices, holes) =>
    match earcutF vertices holes with
    | .error _ => (false, b)
    | .ok triangles =>
      (true,
       (triangleTriples triangles).foldl
         (fun c t => filledTriangle bres c (polygonExtract vertices t.1)
            (polygonExtract vertices t.2.1) (polygonExtract vertices t.2.2) color) b)

/-! ## Concrete objects used by the counterexamples and witnesses -/

/-- Modelled from the spec: the canonical braille bit layout, as the table
`(col, row) ↦ bit` of §3 of the specification. -/
def canonicalBrailleBit (col row : Nat) : Nat :=
  match col, row with
  | 0, 0 => 0x01
  | 0, 1 => 0x02
  | 0, 2 => 0x04
  | 0, 3 => 0x40
  | 1, 0 => 0x08
  | 1, 1 => 0x10
  | 1, 2 => 0x20
  | 1, 3 => 0x80
  | _, _ => 0

/-- The default frame configuration: braille on, delimiter `"\n\r"`. -/
def defaultFrameConfig : FrameConfig := ⟨true, "\n\r"⟩

/-- A 1-cell buffer with foreground 5 and cell background 1 at cell 0 and
global background 2. -/
def c2Buffer : BrailleBuffer :=
  setGlobalBackground (setBackground (setPixel (clearBuffer 2 4) 0 0 5) 0 0 1) 2

/-- A 4-cell single-row buffer: pixels with color 5 in the first three cells,
and in the last cell a double-width char with color 0. -/
def c6Buffer : BrailleBuffer :=
  setChar (setPixel (setPixel (setPixel (clearBuffer 8 4) 0 0 5) 2 0 5) 4 0 5) "木" 6 0 0

/-- A buffer whose cell 0 already has braille bit 1 set (one prior setPixel). -/
def c8Prior : BrailleBuffer := setPixel (clearBuffer 2 4) 0 0 5

/-- 18 distinct tile requests `(1, i, 0)`. -/
def c3Requests : List (Nat × Nat × Nat) := (List.range 18).map (fun i => (1, i, 0))

/-- An ear-cut stub that always throws. -/
def earcutFail : List Int → List Nat → Except Unit (List Nat) := fun _ _ => .error ()

/-- A bresenham stub producing no points (the C7 failure paths never reach it). -/
def bresNone : Int → Int → Int → Int → List Pt := fun _ _ _ _ => []

/-- The loop invariant of `frame()`'s color compression: the SGR sequences
emitted so far have no two adjacent equal elements, and `currentColor`
remembers the last emitted one. -/
def FrameInv (st : FrameState) : Prop :=
  List.Chain' (· ≠ ·) (sgrList st.output) ∧
  st.currentColor = (sgrList st.output).getLast?

/-! # Theorems -/

/-! ## Shared helper lemmas -/

theorem and_three_eq_mod (y : Nat) : y &&& 3 = y % 4 := by
  have h := Nat.and_pow_two_sub_one_eq_mod y 2
  norm_num at h
  exact h

theorem and_one_eq_mod (x : Nat) : x &&& 1 = x % 2 := Nat.and_one_is_mod x

theorem canonical_aux : ∀ r < 4, ∀ c < 2,
    (brailleMap.getD r []).getD c 0 = canonicalBrailleBit c r := by decide

theorem brailleMask_eq_canonical (y x : Nat) :
    brailleMask y x = canonicalBrailleBit (x % 2) (y % 4) := by
  unfold brailleMask
  rw [and_three_eq_mod, and_one_eq_mod]
  exact canonical_aux _ (Nat.mod_lt _ (by norm_num)) _ (Nat.mod_lt _ (by norm_num))

theorem canonical_lt : ∀ c < 2, ∀ r < 4, canonicalBrailleBit c r < 256 := by decide

theorem canonical_pow : ∀ c < 2, ∀ r < 4, ∃ k, k < 8 ∧ canonicalBrailleBit c r = 2 ^ k := by
  decide

theorem brailleMask_lt (y x : Nat) : brailleMask y x < 256 := by
  rw [brailleMask_eq_canonical]
  exact canonical_lt _ (Nat.mod_lt _ (by norm_num)) _ (Nat.mod_lt _ (by norm_num))

/-! ## C1 — the compiled `all` filter -/

/-- Claim C1: the claim states that a compiled `["all", f1, …]` filter accepts
a feature iff every sub-filter accepts it, and that an empty `all` accepts
every feature.  The source instead returns `!!filters.find((a) => !a(feature))`,
so: the empty `all` rejects every feature, an `all` of one always-true
sub-filter rejects, and an `all` of one rejecting sub-filter accepts —
the exact inversion of the claimed AND semantics, at concrete inputs. -/
theorem allFilter_inverted_eval :
    compileFilter (Filter.all []) ⟨[]⟩ = false ∧
    compileFilter (Filter.all [Filter.unknown]) ⟨[]⟩ = false ∧
    compileFilter (Filter.all [Filter.has "x"]) ⟨[]⟩ = true := by decide

/-! ## C2 — background OR-fusion in `_termColor` -/

/-- Claim C2: the claim states that during frame emission the background index
is the cell's `bg` when set, else the global background.  The source computes
`background! | this.globalBackground!` — a bitwise OR.  With cell background 1,
global background 2 and foreground 5 the emitted sequence is
`CSI 38;5;5;48;5;3m` (3 = 1 | 2), not the claimed `…;48;5;1m`. -/
theorem frame_background_or_eval :
    frame c2Buffer defaultFrameConfig = "\x1B[38;5;5;48;5;3m⠁" ++ termReset ++ "\n\r" ∧
    termColor (jsOrNull 5) (jsOrNull 1) (some 2) = "\x1B[38;5;5;48;5;3m" ∧
    termColor (jsOrNull 5) (jsOrNull 1) (some 2) ≠ "\x1B[38;5;5;48;5;1m" := by
  refine ⟨by decide, by decide, by decide⟩

/-! ## C3 — cache eviction deletes index keys -/

/-- Claim C3: the claim states the decoded-tile cache never retains more than
`cacheSize = 16` tiles after a `getTile` call.  The eviction loop iterates
`for…in` over the array returned by `splice`, i.e. over the index strings
"0", "1", …, and deletes those as cache keys; the real `"z-x-y"` keys are
never removed.  After 18 distinct requests the cache holds all 18 tiles. -/
theorem getTile_cache_overflow_eval :
    (runGetTiles initTileSource c3Requests).cache.length = 18 ∧
    (runGetTiles initTileSource c3Requests).cacheSize = 16 := by decide

/-! ## C9 — feature sort key -/

/-- Claim C9 counterexample: the claim states the sort key is `localrank`
when present, else `scalerank` when present, else 0.  The source computes
`localrank || scalerank`: a present `localrank = 0` is falsy and loses to
`scalerank`, and two absent properties give `undefined`, not 0. -/
theorem featureSort_counterexample :
    featureSort (some 0) (some 7) = some 7 ∧
    featureSort (some 0) (some 7) ≠ some 0 ∧
    featureSort none none ≠ some 0 := by decide

/-- Claim C9 (amended): the sort key is `localrank` when that is present and
nonzero; otherwise it is `scalerank` as-is (possibly zero or absent); when
both are absent the key is absent (`undefined`), not 0. -/
theorem featureSort_spec (sr : Option Int) :
    (∀ v : Int, v ≠ 0 → featureSort (some v) sr = some v) ∧
    featureSort (some 0) sr = sr ∧
    featureSort none sr = sr := by
  refine ⟨fun v hv => ?_, rfl, rfl⟩
  simp [featureSort, jsNumOr, hv]

/-- Witness for `featureSort_spec` at `v = 3`, `sr = some 9`. -/
theorem featureSort_spec_witness :
    (3 : Int) ≠ 0 ∧ featureSort (some 3) (some 9) = some 3 :=
  ⟨by decide, (featureSort_spec (some 9)).1 3 (by decide)⟩

/-! ## C4 — label collision test -/

/-- Claim C4 counterexample: the claim states the margin-inflated rectangle
is tested against the stored rectangles, and a later call whose rectangle
overlaps a stored one is rejected.  In the source `_hasSpace` calls
`_calculateArea` without the margin (default 0).  After inserting the label
"A" at (0,0) with margin 2 (stored rectangle `[-2,3] × [-1,1]`), a second
"A" at (8,0) with margin 2 has claim-rectangle `[2,7] × [-1,1]` — which
collides with the stored one — yet the call is accepted. -/
theorem writeIfPossible_margin_counterexample :
    (writeIfPossible [] "A" 0 0 (some 2)).2 = [calculateArea "A" 0 0 2] ∧
    treeCollides [calculateArea "A" 0 0 2] (calculateArea "A" 4 0 2) = true ∧
    (writeIfPossible [calculateArea "A" 0 0 2] "A" 8 0 (some 2)).1 = true := by
  refine ⟨?_, ?_, ?_⟩
  · simp [writeIfPossible, treeCollides, jsMargin, labelProject, calculateArea]
  · simp [treeCollides, rectIntersects, calculateArea, stringWidth, charWidth]
    norm_num
  · simp [writeIfPossible, treeCollides, rectIntersects, jsMargin, labelProject,
      calculateArea, stringWidth, charWidth]
    norm_num

/-- Claim C4 (amended): `writeIfPossible` tests the margin-0 rectangle
`[X, X+width(text)] × [Y, Y]` against the stored rectangles; it returns false
(leaving the tree unchanged) iff that rectangle collides with a stored one,
and otherwise inserts the margin-inflated rectangle
`[X−m, X+m+width(text)] × [Y−m/2, Y+m/2]` and returns true.  Consequently,
once a rectangle is stored, any later call whose margin-0 test rectangle
overlaps it is rejected (overlap of the inflated rectangle alone does not
reject). -/
theorem writeIfPossible_spec (tree : List LabelRect) (text : String) (x y : ℚ)
    (margin : Option ℚ) :
    (treeCollides tree (calculateArea text (labelProject x y).1 (labelProject x y).2 0) = false →
      writeIfPossible tree text x y margin
        = (true, tree ++ [calculateArea text (labelProject x y).1 (labelProject x y).2
            (jsMargin margin)])) ∧
    (treeCollides tree (calculateArea text (labelProject x y).1 (labelProject x y).2 0) = true →
      writeIfPossible tree text x y margin = (false, tree)) ∧
    (∀ r ∈ tree,
      rectIntersects (calculateArea text (labelProject x y).1 (labelProject x y).2 0) r = true →
      writeIfPossible tree text x y margin = (false, tree)) := by
  refine ⟨fun h => ?_, fun h => ?_, fun r hr hint => ?_⟩
  · simp [writeIfPossible, h]
  · simp [writeIfPossible, h]
  · have h : treeCollides tree
        (calculateArea text (labelProject x y).1 (labelProject x y).2 0) = true := by
      simp only [treeCollides, List.any_eq_true]
      exact ⟨r, hr, hint⟩
    simp [writeIfPossible, h]

/-- Witness for `writeIfPossible_spec`: with the stored rectangle
`[-2,3] × [-1,1]`, a call at (1,0) whose margin-0 test rectangle overlaps it
is rejected. -/
theorem writeIfPossible_spec_witness :
    treeCollides [calculateArea "A" 0 0 2]
      (calculateArea "A" (labelProject 1 0).1 (labelProject 1 0).2 0) = true ∧
    writeIfPossible [calculateArea "A" 0 0 2] "A" 1 0 (some 2)
      = (false, [calculateArea "A" 0 0 2]) := by
  have h : treeCollides [calculateArea "A" 0 0 2]
      (calculateArea "A" (labelProject 1 0).1 (labelProject 1 0).2 0) = true := by
    simp [treeCollides, rectIntersects, calculateArea, labelProject, stringWidth, charWidth]
    norm_num
  exact ⟨h, (writeIfPossible_spec [calculateArea "A" 0 0 2] "A" 1 0 (some 2)).2.1 h⟩

/-! ## C6 — SGR state compression counterexample -/

/-- Claim C6 counterexample: the claim states the string returned by
`frame()` never contains two consecutive equal emitted SGR sequences.  In
`c6Buffer` the last cell holds a double-width char with color 0: its reset
SGR is emitted (it differs from the previous color), the char itself does not
fit the row and is not pushed, and then the unconditional `termReset +
delimiter` terminator follows — so the returned string contains the reset
sequence twice in a row. -/
theorem frame_duplicate_sgr_counterexample :
    frame c6Buffer defaultFrameConfig
      = "\x1B[49;38;5;5m⠁⠁⠁" ++ (termReset ++ termReset) ++ "\n\r" := by decide

/-! ## C8 — set/unset counterexample -/

/-- Claim C8 counterexample: the claim states `setPixel` then `unsetPixel`
at the same coordinates restores `pixel[i]` for every prior state.  If the
braille bit was already set in the prior state (`c8Prior.pixel 0 = 1`), the
pair leaves the bit cleared: the result is 0, not 1. -/
theorem set_unset_counterexample :
    c8Prior.pixel 0 = 1 ∧
    (unsetPixel (setPixel c8Prior 0 0 5) 0 0).pixel 0 = 0 := by decide

/-! ## More shared helpers: bitwise byte lemmas and buffer projections -/

theorem byte_lor_lt {p m : Nat} (hp : p < 256) (hm : m < 256) : p ||| m < 256 := by
  have h : (256 : Nat) = 2 ^ 8 := by norm_num
  rw [h] at hp hm ⊢
  exact Nat.or_lt_two_pow hp hm

theorem testBit_false_of_byte {p i : Nat} (hp : p < 256) (hi : 8 ≤ i) :
    p.testBit i = false := by
  refine Nat.testBit_lt_two_pow (lt_of_lt_of_le hp ?_)
  calc (256 : Nat) = 2 ^ 8 := by norm_num
    _ ≤ 2 ^ i := Nat.pow_le_pow_right (by norm_num) hi

theorem lor_and_mask_cancel {p m : Nat} (hp : p < 256) (hm : m < 256) :
    (p ||| m) &&& (4294967295 ^^^ m) = p &&& (4294967295 ^^^ m) := by
  apply Nat.eq_of_testBit_eq
  intro i
  simp only [Nat.testBit_land, Nat.testBit_lor, Nat.testBit_xor]
  rw [show (4294967295 : Nat) = 2 ^ 32 - 1 by norm_num, Nat.testBit_two_pow_sub_one]
  by_cases hi : i < 32
  · cases hmi : m.testBit i <;> simp [hi, hmi]
  · have hpi : p.testBit i = false := testBit_false_of_byte hp (by omega)
    have hmi : m.testBit i = false := testBit_false_of_byte hm (by omega)
    simp [hi, hpi, hmi]

theorem and_mask_eq_self {p m : Nat} (hp : p < 256) (hdisj : p &&& m = 0) :
    p &&& (4294967295 ^^^ m) = p := by
  apply Nat.eq_of_testBit_eq
  intro i
  simp only [Nat.testBit_land, Nat.testBit_xor]
  rw [show (4294967295 : Nat) = 2 ^ 32 - 1 by norm_num, Nat.testBit_two_pow_sub_one]
  cases hpi : p.testBit i with
  | false => simp [hpi]
  | true =>
    have hi8 : i < 8 := by
      by_contra hge
      have hfalse : p.testBit i = false := testBit_false_of_byte hp (by omega)
      rw [hfalse] at hpi
      exact Bool.noConfusion hpi
    have hmi : m.testBit i = false := by
      have h0 := congrArg (fun t => Nat.testBit t i) hdisj
      simp only [Nat.testBit_land, Nat.zero_testBit] at h0
      rw [hpi] at h0
      simpa using h0
    simp [hpi, hmi, show i < 32 by omega]

theorem setPixel_width (b : BrailleBuffer) (x y : Int) (c : Nat) :
    (setPixel b x y c).width = b.width := by
  unfold setPixel; split <;> rfl

theorem setPixel_height (b : BrailleBuffer) (x y : Int) (c : Nat) :
    (setPixel b x y c).height = b.height := by
  unfold setPixel; split <;> rfl

theorem inBounds_setPixel (b : BrailleBuffer) (x y x' y' : Int) (c : Nat) :
    inBounds (setPixel b x y c) x' y' ↔ inBounds b x' y' := by
  unfold inBounds
  rw [setPixel_width, setPixel_height]

/-! ## C5 — setPixel -/

/-- Claim C5: `setPixel(x, y, c)` is a no-op out of `[0,W) × [0,H)`;
in range it ORs exactly the single braille bit for `(x mod 2, y mod 4)` of the
canonical layout into `pixel[i]` at `i = (x>>1) + (W>>1)*(y>>2)` (which is
`project`), sets `fg[i] = c`, and changes no other cell and no background
byte (for byte-valued stores: `c < 256` and a byte-valued prior cell). -/
theorem setPixel_spec (b : BrailleBuffer) (x y : Int) (c : Nat) (hc : c < 256) :
    (¬ inBounds b x y → setPixel b x y c = b) ∧
    (inBounds b x y → b.pixel (project b.width x.toNat y.toNat) < 256 →
      (setPixel b x y c).pixel (project b.width x.toNat y.toNat)
          = b.pixel (project b.width x.toNat y.toNat)
              ||| canonicalBrailleBit (x.toNat % 2) (y.toNat % 4) ∧
      (∃ k, k < 8 ∧ canonicalBrailleBit (x.toNat % 2) (y.toNat % 4) = 2 ^ k) ∧
      (setPixel b x y c).fg (project b.width x.toNat y.toNat) = c ∧
      (∀ j, j ≠ project b.width x.toNat y.toNat →
        (setPixel b x y c).pixel j = b.pixel j ∧ (setPixel b x y c).fg j = b.fg j) ∧
      (setPixel b x y c).bg = b.bg ∧
      (setPixel b x y c).char = b.char ∧
      (setPixel b x y c).globalBackground = b.globalBackground) := by
  constructor
  · intro h
    simp only [setPixel, if_neg h]
  · intro h hp
    have hm : brailleMask y.toNat x.toNat < 256 := brailleMask_lt _ _
    have hlor := byte_lor_lt hp hm
    refine ⟨?_, ?_, ?_, fun j hj => ⟨?_, ?_⟩, ?_, ?_, ?_⟩
    · simp only [setPixel, if_pos h]
      rw [Function.update_same, Nat.mod_eq_of_lt hlor, brailleMask_eq_canonical]
    · exact canonical_pow _ (Nat.mod_lt _ (by norm_num)) _ (Nat.mod_lt _ (by norm_num))
    · simp only [setPixel, if_pos h]
      rw [Function.update_same, Nat.mod_eq_of_lt hc]
    · simp only [setPixel, if_pos h]
      rw [Function.update_noteq hj]
    · simp only [setPixel, if_pos h]
      rw [Function.update_noteq hj]
    · simp only [setPixel, if_pos h]
    · simp only [setPixel, if_pos h]
    · simp only [setPixel, if_pos h]

/-- Witness for `setPixel_spec` at `(x, y) = (0, 1)`, `c = 9` on a cleared
2×4 buffer. -/
theorem setPixel_spec_witness :
    (9 : Nat) < 256 ∧ inBounds (clearBuffer 2 4) 0 1 ∧
    (setPixel (clearBuffer 2 4) 0 1 9).pixel
        (project (clearBuffer 2 4).width (Int.toNat 0) (Int.toNat 1))
      = (clearBuffer 2 4).pixel (project (clearBuffer 2 4).width (Int.toNat 0) (Int.toNat 1))
          ||| canonicalBrailleBit (Int.toNat 0 % 2) (Int.toNat 1 % 4) ∧
    (setPixel (clearBuffer 2 4) 0 1 9).fg
        (project (clearBuffer 2 4).width (Int.toNat 0) (Int.toNat 1)) = 9 :=
  ⟨by decide, by decide,
   ((setPixel_spec (clearBuffer 2 4) 0 1 9 (by decide)).2 (by decide) (by decide)).1,
   ((setPixel_spec (clearBuffer 2 4) 0 1 9 (by decide)).2 (by decide) (by decide)).2.2.1⟩

/-! ## C8 — set/unset (amended) -/

/-- Claim C8 (amended): for a byte-valued prior cell, `setPixel` then
`unsetPixel` at the same in-range coordinates leaves `pixel[i]` equal to the
prior value with the braille bit cleared; it restores the prior value exactly
when that bit was not set in the prior state. -/
theorem set_unset_spec (b : BrailleBuffer) (x y : Int) (c : Nat)
    (h : inBounds b x y)
    (hp : b.pixel (project b.width x.toNat y.toNat) < 256) :
    (unsetPixel (setPixel b x y c) x y).pixel (project b.width x.toNat y.toNat)
        = b.pixel (project b.width x.toNat y.toNat)
            &&& (4294967295 ^^^ brailleMask y.toNat x.toNat) ∧
    (b.pixel (project b.width x.toNat y.toNat) &&& brailleMask y.toNat x.toNat = 0 →
      (unsetPixel (setPixel b x y c) x y).pixel (project b.width x.toNat y.toNat)
        = b.pixel (project b.width x.toNat y.toNat)) := by
  have h' : inBounds (setPixel b x y c) x y := (inBounds_setPixel b x y x y c).mpr h
  have hm : brailleMask y.toNat x.toNat < 256 := brailleMask_lt _ _
  have hlor := byte_lor_lt hp hm
  have key : (unsetPixel (setPixel b x y c) x y).pixel (project b.width x.toNat y.toNat)
      = ((b.pixel (project b.width x.toNat y.toNat) ||| brailleMask y.toNat x.toNat) % 256
          &&& (4294967295 ^^^ brailleMask y.toNat x.toNat)) % 256 := by
    simp only [unsetPixel, if_pos h', setPixel_width]
    rw [Function.update_same]
    simp only [setPixel, if_pos h]
    rw [Function.update_same]
  have h1 : (b.pixel (project b.width x.toNat y.toNat) ||| brailleMask y.toNat x.toNat) % 256
      = b.pixel (project b.width x.toNat y.toNat) ||| brailleMask y.toNat x.toNat :=
    Nat.mod_eq_of_lt hlor
  have h3 : b.pixel (project b.width x.toNat y.toNat)
      &&& (4294967295 ^^^ brailleMask y.toNat x.toNat) < 256 :=
    lt_of_le_of_lt Nat.and_le_left hp
  refine ⟨?_, fun hdisj => ?_⟩
  · rw [key, h1, lor_and_mask_cancel hp hm, Nat.mod_eq_of_lt h3]
  · rw [key, h1, lor_and_mask_cancel hp hm, Nat.mod_eq_of_lt h3,
      and_mask_eq_self hp hdisj]

/-- Witness for `set_unset_spec` on a cleared buffer (bit not previously
set, so the pair restores the prior pixel byte). -/
theorem set_unset_spec_witness :
    inBounds (clearBuffer 2 4) 0 0 ∧
    (clearBuffer 2 4).pixel (project (clearBuffer 2 4).width (Int.toNat 0) (Int.toNat 0)) < 256 ∧
    (unsetPixel (setPixel (clearBuffer 2 4) 0 0 7) 0 0).pixel
        (project (clearBuffer 2 4).width (Int.toNat 0) (Int.toNat 0))
      = (clearBuffer 2 4).pixel (project (clearBuffer 2 4).width (Int.toNat 0) (Int.toNat 0)) :=
  ⟨by decide, by decide,
   (set_unset_spec (clearBuffer 2 4) 0 0 7 (by decide) (by decide)).2 (by decide)⟩

/-! ## C10 — zero color bytes mean "unset" -/

/-- Claim C10: a foreground byte of 0 — including one written by
`setPixel(x, y, 0)` — makes `frame()` build the cell's SGR sequence exactly
as if the cell had no foreground (`fg[idx] || null` turns 0 into null), and
a background byte of 0 is likewise treated as no cell background. -/
theorem zero_color_unset_spec (b : BrailleBuffer) (x y : Int) (fo gb : Option Nat)
    (bgv : Nat) :
    termColor (jsOrNull 0) (jsOrNull bgv) gb = termColor none (jsOrNull bgv) gb ∧
    termColor fo (jsOrNull 0) gb = termColor fo none gb ∧
    (inBounds b x y →
      cellColor (setPixel b x y 0) (project b.width x.toNat y.toNat)
        = termColor none (jsOrNull (b.bg (project b.width x.toNat y.toNat)))
            b.globalBackground) := by
  refine ⟨rfl, rfl, fun h => ?_⟩
  simp only [cellColor, setPixel, if_pos h]
  rw [Function.update_same]
  rfl

/-- Witness for `zero_color_unset_spec` at the origin of a cleared buffer. -/
theorem zero_color_unset_spec_witness :
    inBounds (clearBuffer 2 4) 0 0 ∧
    cellColor (setPixel (clearBuffer 2 4) 0 0 0)
        (project (clearBuffer 2 4).width (Int.toNat 0) (Int.toNat 0))
      = termColor none
          (jsOrNull ((clearBuffer 2 4).bg
            (project (clearBuffer 2 4).width (Int.toNat 0) (Int.toNat 0))))
          (clearBuffer 2 4).globalBackground :=
  ⟨by decide, (zero_color_unset_spec (clearBuffer 2 4) 0 0 none none 0).2.2 (by decide)⟩

/-! ## C6 — SGR state compression (amended) -/

theorem sgrList_append (l₁ l₂ : List Chunk) :
    sgrList (l₁ ++ l₂) = sgrList l₁ ++ sgrList l₂ := by
  simp [sgrList, List.filterMap_append]

theorem sgrList_concat_text (l : List Chunk) (s : String) :
    sgrList (l ++ [Chunk.text s]) = sgrList l := by
  rw [sgrList_append]
  simp [sgrList]

theorem sgrList_concat_sgr (l : List Chunk) (s : String) :
    sgrList (l ++ [Chunk.sgr s]) = sgrList l ++ [s] := by
  rw [sgrList_append]
  simp [sgrList]

theorem chain_ne_concat (l : List String) (s : String)
    (h : List.Chain' (· ≠ ·) l) (hne : l.getLast? ≠ some s) :
    List.Chain' (· ≠ ·) (l ++ [s]) := by
  refine List.Chain'.append h (List.chain'_singleton s) ?_
  intro a ha b hb
  simp only [List.head?_cons, Option.mem_def, Option.some.injEq] at hb
  subst hb
  intro hab
  subst hab
  exact hne ha

theorem frameInv_skip (st : FrameState) (h : FrameInv st) (sk : Nat) :
    FrameInv ⟨st.currentColor, sk, st.output⟩ := h

theorem frameInv_push_text (st : FrameState) (h : FrameInv st) (sk : Nat) (s : String) :
    FrameInv ⟨st.currentColor, sk, st.output ++ [Chunk.text s]⟩ :=
  ⟨by rw [sgrList_concat_text]; exact h.1, by rw [sgrList_concat_text]; exact h.2⟩

theorem frameInv_push_sgr (st : FrameState) (h : FrameInv st) (s : String)
    (hne : st.currentColor ≠ some s) :
    FrameInv ⟨some s, st.skip, st.output ++ [Chunk.sgr s]⟩ := by
  constructor
  · show List.Chain' (· ≠ ·) (sgrList (st.output ++ [Chunk.sgr s]))
    rw [sgrList_concat_sgr]
    refine chain_ne_concat _ _ h.1 ?_
    rw [← h.2]
    exact hne
  · show some s = (sgrList (st.output ++ [Chunk.sgr s])).getLast?
    rw [sgrList_concat_sgr, List.getLast?_concat]

theorem cellDelimStep_inv (cfg : FrameConfig) (idx x : Nat) (st : FrameState)
    (h : FrameInv st) : FrameInv (cellDelimStep cfg idx x st) := by
  unfold cellDelimStep
  split
  · exact frameInv_push_text st h _ _
  · exact h

theorem cellColorStep_inv (b : BrailleBuffer) (idx : Nat) (st : FrameState)
    (h : FrameInv st) : FrameInv (cellColorStep b idx st) := by
  unfold cellColorStep
  dsimp only
  split
  case isTrue hne => exact frameInv_push_sgr st h _ hne
  case isFalse _ => exact h

theorem cellGlyphStep_inv (b : BrailleBuffer) (cfg : FrameConfig) (idx x : Nat)
    (st : FrameState) (h : FrameInv st) : FrameInv (cellGlyphStep b cfg idx x st) := by
  unfold cellGlyphStep
  split
  · dsimp only
    split
    · exact frameInv_push_text st h _ _
    · exact frameInv_skip st h _
  · split
    · exact frameInv_push_text st h _ _
    · exact frameInv_skip st h _

theorem frameCell_inv (b : BrailleBuffer) (cfg : FrameConfig) (y x : Nat)
    (st : FrameState) (h : FrameInv st) : FrameInv (frameCell b cfg y x st) :=
  cellGlyphStep_inv _ _ _ _ _ (cellColorStep_inv _ _ _ (cellDelimStep_inv _ _ _ _ h))

theorem foldl_frameInv {α : Type} (step : FrameState → α → FrameState)
    (hstep : ∀ st a, FrameInv st → FrameInv (step st a)) :
    ∀ (l : List α) (st : FrameState), FrameInv st → FrameInv (l.foldl step st) := by
  intro l
  induction l with
  | nil => exact fun st h => h
  | cons a l ih => exact fun st h => ih (step st a) (hstep st a h)

theorem frameRow_inv (b : BrailleBuffer) (cfg : FrameConfig) (st : FrameState) (y : Nat)
    (h : FrameInv st) : FrameInv (frameRow b cfg st y) := by
  unfold frameRow
  exact foldl_frameInv _ (fun s x hs => frameCell_inv b cfg y x s hs) _ _ h

/-- Claim C6 (amended): in every frame, the SGR sequences emitted by the
per-cell state-compression step form a sequence with no two adjacent equal
elements (an SGR is emitted for a cell only when it differs from the last
emitted one); the final unconditional `termReset` terminator is outside this
compression and may duplicate the last emitted sequence (see the
counterexample). -/
theorem frame_sgr_state_compressed (b : BrailleBuffer) (cfg : FrameConfig) :
    List.Chain' (· ≠ ·) (sgrList (frameChunks b cfg)) := by
  unfold frameChunks
  rw [sgrList_concat_text]
  exact (foldl_frameInv _ (fun st y hs => frameRow_inv b cfg st y hs)
    (List.range (b.height / 4)) ⟨none, 0, []⟩ ⟨List.chain'_nil, rfl⟩).1

/-! ## C7 — polygon failure paths -/

theorem flattenRing_length (ring : List Pt) :
    ∀ vs : List Int, (flattenRing vs ring).length = vs.length + 2 * ring.length := by
  induction ring with
  | nil => intro vs; simp [flattenRing]
  | cons p ps ih =>
    intro vs
    show (flattenRing (vs ++ [p.x, p.y]) ps).length = vs.length + 2 * (p :: ps).length
    rw [ih]
    simp
    omega

theorem buildVertices_skip_mid (ring : List Pt) (post : List (List Pt))
    (hr : ring.length < 3) :
    ∀ (pre : List (List Pt)) (vs : List Int) (hs : List Nat), vs.length ≠ 0 →
      buildVertices (pre ++ ring :: post) vs hs = buildVertices (pre ++ post) vs hs := by
  intro pre
  induction pre with
  | nil =>
    intro vs hs hv
    simp only [List.nil_append]
    conv_lhs => unfold buildVertices
    rw [if_pos hv, if_pos hr]
  | cons r pre ih =>
    intro vs hs hv
    simp only [List.cons_append]
    unfold buildVertices
    rw [if_pos hv, if_pos hv]
    by_cases hrl : r.length < 3
    · rw [if_pos hrl, if_pos hrl]
      exact ih vs hs hv
    · rw [if_neg hrl, if_neg hrl]
      refine ih _ _ ?_
      rw [flattenRing_length]
      omega

/-- Claim C7: `Canvas.polygon` (with its `earcut`/`bresenham` dependencies
abstracted as parameters) returns `(false, unchanged buffer)` when the first
ring has fewer than 3 vertices; skips inner rings with fewer than 3 vertices
without failing (the result is the same as if the short inner ring were
absent); and returns `(false, unchanged buffer)` when the triangulation
throws. -/
theorem polygon_failure_spec (ef : List Int → List Nat → Except Unit (List Nat))
    (bres : Int → Int → Int → Int → List Pt) (b : BrailleBuffer) (color : Nat) :
    (∀ (r0 : List Pt) (rest : List (List Pt)), r0.length < 3 →
      polygon ef bres b (r0 :: rest) color = (false, b)) ∧
    (∀ (r0 ring : List Pt) (pre post : List (List Pt)), 3 ≤ r0.length → ring.length < 3 →
      polygon ef bres b (r0 :: (pre ++ ring :: post)) color
        = polygon ef bres b (r0 :: (pre ++ post)) color) ∧
    (∀ (rings : List (List Pt)) (vs : List Int) (hs : List Nat),
      buildVertices rings [] [] = some (vs, hs) → ef vs hs = Except.error () →
      polygon ef bres b rings color = (false, b)) := by
  have h0 : ¬(([] : List Int).length ≠ 0) := by simp
  refine ⟨fun r0 rest hr => ?_, fun r0 ring pre post h3 hr => ?_, fun rings vs hs h1 h2 => ?_⟩
  · have hb : buildVertices (r0 :: rest) ([] : List Int) ([] : List Nat) = none := by
      unfold buildVertices
      rw [if_neg h0, if_pos hr]
    unfold polygon
    rw [hb]
  · have h3' : ¬(r0.length < 3) := by omega
    have hb : buildVertices (r0 :: (pre ++ ring :: post)) ([] : List Int) ([] : List Nat)
        = buildVertices (r0 :: (pre ++ post)) ([] : List Int) ([] : List Nat) := by
      unfold buildVertices
      rw [if_neg h0, if_neg h3', if_neg h0, if_neg h3']
      refine buildVertices_skip_mid ring post hr pre _ _ ?_
      rw [flattenRing_length]
      simp only [List.length_nil]
      omega
    unfold polygon
    rw [hb]
  · unfold polygon
    rw [h1]
    dsimp only
    rw [h2]

/-- Witness for `polygon_failure_spec`: a 2-vertex outer ring fails without
writes; a 1-vertex inner ring is skipped; an always-throwing ear-cut makes a
valid triangle fail without writes. -/
theorem polygon_failure_spec_witness :
    polygon earcutFail bresNone (clearBuffer 4 8) [[⟨0, 0⟩, ⟨1, 0⟩]] 3
      = (false, clearBuffer 4 8) ∧
    polygon earcutFail bresNone (clearBuffer 4 8) [[⟨0, 0⟩, ⟨4, 0⟩, ⟨0, 4⟩], [⟨9, 9⟩]] 3
      = polygon earcutFail bresNone (clearBuffer 4 8) [[⟨0, 0⟩, ⟨4, 0⟩, ⟨0, 4⟩]] 3 ∧
    polygon earcutFail bresNone (clearBuffer 4 8) [[⟨0, 0⟩, ⟨4, 0⟩, ⟨0, 4⟩]] 3
      = (false, clearBuffer 4 8) := by
  refine ⟨?_, ?_, ?_⟩
  · exact (polygon_failure_spec earcutFail bresNone (clearBuffer 4 8) 3).1
      [⟨0, 0⟩, ⟨1, 0⟩] [] (by norm_num)
  · simpa using (polygon_failure_spec earcutFail bresNone (clearBuffer 4 8) 3).2.1
      [⟨0, 0⟩, ⟨4, 0⟩, ⟨0, 4⟩] [⟨9, 9⟩] [] [] (by norm_num) (by norm_num)
  · exact (polygon_failure_spec earcutFail bresNone (clearBuffer 4 8) 3).2.2
      [[⟨0, 0⟩, ⟨4, 0⟩, ⟨0, 4⟩]] [0, 0, 4, 0, 0, 4] [] (by decide) rfl

end Mapscii
